import Mathlib

/-!
Verification of the HTTP route layer of the gradio server (routes.py).

The embedding models the pure request-handling logic of the source:
path sanitization (safe_join, following posixpath.normpath and
posixpath.join), the cookie auth gate (get_current_user, login_check,
login), the predict dispatch handler with its session-state lifecycle,
the queue status facade, and the three file-serving routes.

Python dicts are modelled as association lists (first match wins,
assignment overwrites), machine randomness (secrets.token_urlsafe) is a
parameter, and the external processing pipeline (app.blocks.process_api)
is a function parameter threaded through explicit state passing.
Strings are manipulated through their character lists so that every
definition evaluates by kernel reduction.
-/

namespace GradioRoutes

/-! ## Association lists: the model of Python dict lookup and assignment -/

/-- Python d.get(k) / k in d: first binding of k in the association list. -/
def alookup {α β : Type} [DecidableEq α] : List (α × β) → α → Option β
  | [], _ => none
  | (k, v) :: rest, key => if key = k then some v else alookup rest key

/-- Python d[k] = v: overwrite the first binding of k, or append a new one. -/
def aset {α β : Type} [DecidableEq α] : List (α × β) → α → β → List (α × β)
  | [], key, v => [(key, v)]
  | (k, w) :: rest, key, v =>
      if key = k then (k, v) :: rest else (k, w) :: aset rest key v

/-! ## posixpath.normpath

Model of CPython posixpath.normpath on the character list of the path.
Components are '/'-separated character lists; the accumulator of the
main loop is kept in reverse order (head = most recently appended). -/

/-- str.split(sep) for the single character sep, on character lists. -/
def splitOnChar (sep : Char) : List Char → List (List Char)
  | [] => [[]]
  | c :: rest =>
      let r := splitOnChar sep rest
      if c = sep then [] :: r
      else
        match r with
        | [] => [[c]]
        | h :: t => (c :: h) :: t

/-- sep.join(comps) for sep = '/': interleave a slash between components. -/
def joinComps : List (List Char) → List Char
  | [] => []
  | [c] => c
  | c :: rest => c ++ '/' :: joinComps rest

/-- One step of the normpath component loop.  Mirrors the loop body of
posixpath.normpath: skip empty and dot components; append a component
unless it is a dotdot that can cancel against the accumulator; pop for
a cancelling dotdot. -/
def normStep (hasInitSlash : Bool) (acc : List (List Char)) (comp : List Char) :
    List (List Char) :=
  if comp = [] ∨ comp = ['.'] then acc
  else if comp ≠ ['.', '.'] ∨ (hasInitSlash = false ∧ acc = []) ∨
      acc.head? = some ['.', '.'] then
    comp :: acc
  else acc.tail

/-- os.path.isabs on a POSIX path: the path begins with a slash. -/
def isAbs (p : List Char) : Bool := p.head? = some '/'

/-- Number of leading slashes kept by posixpath.normpath: two initial
slashes are preserved, one or three-or-more collapse to one. -/
def initialSlashes (p : List Char) : Nat :=
  if isAbs p then
    if List.isPrefixOf ['/', '/'] p ∧ ¬ List.isPrefixOf ['/', '/', '/'] p then 2
    else 1
  else 0

/-- The component list produced by posixpath.normpath, in order. -/
def normComps (p : List Char) : List (List Char) :=
  ((splitOnChar '/' p).foldl (normStep (isAbs p)) []).reverse

/-- posixpath.normpath on character lists. -/
def normpathL (p : List Char) : List Char :=
  if p = [] then ['.']
  else if List.replicate (initialSlashes p) '/' ++ joinComps (normComps p) = [] then
    ['.']
  else List.replicate (initialSlashes p) '/' ++ joinComps (normComps p)

/-- posixpath.normpath. -/
def normpath (s : String) : String := ⟨normpathL s.data⟩

/-- posixpath.join for two arguments: the second path replaces the first
when absolute, otherwise it is appended with a separating slash. -/
def posixJoin (a b : String) : String :=
  if isAbs b.data then b
  else if a.data = [] ∨ a.data.getLast? = some '/' then ⟨a.data ++ b.data⟩
  else ⟨a.data ++ '/' :: b.data⟩

/-! ## safe_join (routes.py, helper functions)

safe_join(directory, path) normalizes the caller path with
posixpath.normpath and rejects it (None, the not-found result) when the
normalized name contains a platform alternate separator, is absolute,
equals dotdot, or starts with dotdot-slash; otherwise it joins it onto
the base directory.  The Python local `filename` is assigned only when
path is non-empty, so the empty path reaches an unassigned local and
raises; the embedding returns the error value there.  The platform
alternate separators (os.path.sep / os.path.altsep other than slash)
are a parameter. -/

/-- The rejection condition of safe_join, evaluated on the normalized name. -/
def rejects (altSeps : List Char) (filename : String) : Bool :=
  altSeps.any (fun sep => filename.data.contains sep) || isAbs filename.data ||
    filename.data == ['.', '.'] || List.isPrefixOf ['.', '.', '/'] filename.data

/-- safe_join from routes.py. -/
def safe_join (altSeps : List Char) (directory path : String) :
    Except Unit (Option String) :=
  if path = "" then Except.error ()
  else if rejects altSeps (normpath path) then Except.ok none
  else Except.ok (some (posixJoin directory (normpath path)))

/-- The reversed accumulator of the normpath loop is always a block of
non-dotdot components on top of a block of dotdots, so dotdots only
survive at the front of the output. -/
def Segregated (l : List (List Char)) : Prop :=
  ∃ xs ys, l = xs ++ ys ∧ (∀ x ∈ xs, x ≠ ['.', '.']) ∧ ∀ y ∈ ys, y = ['.', '.']

/-! ## Application model (create_app in routes.py)

The server state: an optional auth policy (username/password table or
callable predicate), the process-wide token table, the process-wide
session state holder, and the blocks object carrying the UI
configuration and the external processing pipeline.  Values stored in
session state, the configuration document, and pipeline outputs are
type parameters V, C, O. -/

/-- The two supported auth policies of create_app. -/
inductive Auth where
  | table (t : List (String × String))
  | callable (f : String → String → Bool)

/-- A block as seen by the predict handler: getattr(block, "stateful",
False) and getattr(block, "default_value", None). -/
structure SBlock (V : Type) where
  stateful : Bool
  default_value : Option V

/-- One session: block id mapped to current stateful value. -/
abbrev SessionState (V : Type) := List (Nat × Option V)

/-- app.state_holder: session hash mapped to its session state. -/
abbrev StateHolder (V : Type) := List (String × SessionState V)

/-- The JSON body of a predict request (the fields the handler reads). -/
structure PredictBody (V : Type) where
  session_hash : Option String
  data : List V
  fn_index : Option Nat

/-- app.blocks: the UI object the routes delegate to. -/
structure Blocks (V C O : Type) where
  blocks : List (Nat × SBlock V)
  input_components : List String
  config : C
  auth_message : Option String
  show_error : Bool
  share : Bool
  process_api :
    PredictBody V → Option String → SessionState V → SessionState V × Except String O

/-- The application state assembled by create_app. -/
structure App (V C O : Type) where
  auth : Option Auth
  tokens : List (String × String)
  state_holder : StateHolder V
  blocks : Blocks V C O

/-! ## Auth gate (get_current_user, login_check, login) -/

/-- get_current_user: look the access-token cookie up in the token table. -/
def get_current_user {V C O : Type} (app : App V C O) (cookie : Option String) :
    Option String :=
  match cookie with
  | none => none
  | some token => alookup app.tokens token

/-- login_check: allow when no auth policy is configured or the caller
resolved to a user, otherwise raise the 401 Not authenticated error. -/
def login_check {V C O : Type} (app : App V C O) (user : Option String) :
    Except Nat Unit :=
  match app.auth, user with
  | none, _ => Except.ok ()
  | some _, some _ => Except.ok ()
  | some _, none => Except.error 401

/-- Evaluation of the login condition of the /login route: for a table
policy the username must be a key whose value equals the password; for
a callable policy the callable must return truthy. -/
def authAllows (auth : Auth) (username password : String) : Bool :=
  match auth with
  | .table t =>
      match alookup t username with
      | some pw => pw == password
      | none => false
  | .callable f => f username password

/-- Result of the /login route: a 302 redirect that sets the
access-token cookie, or the 400 Incorrect credentials error. -/
inductive LoginResult where
  | redirect (statusCode : Nat) (cookieToken : String)
  | httpError (statusCode : Nat)
deriving DecidableEq

/-- The /login route: on success store the fresh random token (the
secrets.token_urlsafe value, a parameter here) mapped to the username
and redirect; otherwise 400, leaving the token table untouched. -/
def login (auth : Auth) (tokens : List (String × String)) (freshToken : String)
    (username password : String) : List (String × String) × LoginResult :=
  if authAllows auth username password then
    (aset tokens freshToken username, .redirect 302 freshToken)
  else (tokens, .httpError 400)

/-! ## Predict dispatch handler -/

/-- The session state created for a hash seen for the first time: every
stateful block id mapped to its default value, and nothing else. -/
def seedState {V : Type} (blocks : List (Nat × SBlock V)) : SessionState V :=
  (blocks.filter (fun b => b.2.stateful)).map (fun b => (b.1, b.2.default_value))

/-- Session resolution step of the predict handler: with a hash, look
up or lazily create the session keyed by it; without one, use a
throwaway empty state. -/
def resolveSession {V C O : Type} (app : App V C O) (hash? : Option String) :
    StateHolder V × SessionState V :=
  match hash? with
  | some h =>
      match alookup app.state_holder h with
      | some st => (app.state_holder, st)
      | none =>
          (aset app.state_holder h (seedState app.blocks.blocks),
            seedState app.blocks.blocks)
  | none => (app.state_holder, [])

/-- The session state the predict handler passes to the pipeline. -/
def predictSession {V C O : Type} (app : App V C O) (body : PredictBody V) :
    SessionState V :=
  (resolveSession app body.session_hash).2

/-- Response of the predict route: the auth-gate error, the pipeline
output, the error envelope (show_error on), or a propagated exception. -/
inductive PredictResp (O : Type) where
  | httpError (code : Nat)
  | success (out : O)
  | errorEnvelope (error : String) (code : Nat)
  | raised (msg : String)
deriving DecidableEq

/-- Observable outcome of one predict request: the response, whether
the pipeline ran, the state holder afterwards, and whether a traceback
was printed server-side. -/
structure PredictOutcome (V O : Type) where
  response : PredictResp O
  pipelineRan : Bool
  state_holder : StateHolder V
  loggedTraceback : Bool

/-- The predict route.  The gate dependency runs first; then session
resolution, the pipeline call (its in-place mutation of the shared
session dict is modelled by writing the final state back under the
hash), and outcome mapping per show_error. -/
def predict {V C O : Type} (app : App V C O) (cookie : Option String)
    (body : PredictBody V) : PredictOutcome V O :=
  match login_check app (get_current_user app cookie) with
  | Except.error code =>
      { response := .httpError code, pipelineRan := false,
        state_holder := app.state_holder, loggedTraceback := false }
  | Except.ok () =>
      let username := get_current_user app cookie
      let resolved := resolveSession app body.session_hash
      let ran := app.blocks.process_api body username resolved.2
      let holder :=
        match body.session_hash with
        | some h => aset resolved.1 h ran.1
        | none => resolved.1
      match ran.2 with
      | Except.ok out =>
          { response := .success out, pipelineRan := true,
            state_holder := holder, loggedTraceback := false }
      | Except.error e =>
          if app.blocks.show_error then
            { response := .errorEnvelope e 500, pipelineRan := true,
              state_holder := holder, loggedTraceback := true }
          else
            { response := .raised e, pipelineRan := true,
              state_holder := holder, loggedTraceback := false }

/-! ## Config surface (get_config, main) -/

/-- Response of the configuration surface: the full document, the
reduced auth_required document, or an error. -/
inductive ConfigResp (C : Type) where
  | doc (config : C)
  | authStub (auth_message : Option String)
  | httpError (code : Nat)
deriving DecidableEq

/-- The config route: gated by login_check, then the full document. -/
def get_config {V C O : Type} (app : App V C O) (cookie : Option String) :
    ConfigResp C :=
  match login_check app (get_current_user app cookie) with
  | Except.error code => .httpError code
  | Except.ok () => .doc app.blocks.config

/-- The configuration document selected by the root route (main):
the full document when no auth policy is configured or the caller is
authenticated, otherwise the reduced auth_required document. -/
def main_config {V C O : Type} (app : App V C O) (cookie : Option String) :
    ConfigResp C :=
  match app.auth, get_current_user app cookie with
  | none, _ => .doc app.blocks.config
  | some _, some _ => .doc app.blocks.config
  | some _, none => .authStub app.blocks.auth_message

/-! ## Queue status facade -/

/-- The JSON body of a queue status poll. -/
structure QueueStatusBody where
  hash : String

/-- The envelope returned by the queue status route. -/
structure StatusEnvelope (D : Type) where
  status : String
  data : Option D
deriving DecidableEq

/-- Modelled from the spec: queueing.get_status belongs to the external
queueing module, which is not among the sources; per the spec it
returns the (status, result) pair the queue engine recorded for a known
hash and a defined not_found status with no data for an unknown hash,
without throwing. -/
def queueing_get_status {D : Type} (queue : List (String × String × Option D))
    (h : String) : String × Option D :=
  match alookup queue h with
  | some sd => sd
  | none => ("not_found", none)

/-- The queue status route: forward to the engine and reshape the pair
as the status/data envelope. -/
def queue_status {D : Type} (queue : List (String × String × Option D))
    (body : QueueStatusBody) : StatusEnvelope D :=
  { status := (queueing_get_status queue body.hash).1,
    data := (queueing_get_status queue body.hash).2 }

/-! ## File-serving routes -/

/-- Response of a file-serving route. -/
inductive FileResp where
  | redirect (url : String)
  | fileContent (path : String)
  | httpError (code : Nat) (detail : String)
  | nullBody
  | raised
deriving DecidableEq

/-- The static route: redirect to the CDN in share mode, otherwise
serve the safe_join of the static root and the caller path, with 404
when safe_join rejects. -/
def static_resource (altSeps : List Char) (share : Bool)
    (staticUrl staticRoot path : String) : FileResp :=
  if share then .redirect (staticUrl ++ path)
  else
    match safe_join altSeps staticRoot path with
    | Except.error _ => .raised
    | Except.ok none => .httpError 404 "Static file not found"
    | Except.ok (some f) => .fileContent f

/-- The assets route; identical to the static route up to root and
error detail. -/
def build_resource (altSeps : List Char) (share : Bool)
    (buildUrl buildRoot path : String) : FileResp :=
  if share then .redirect (buildUrl ++ path)
  else
    match safe_join altSeps buildRoot path with
    | Except.error _ => .raised
    | Except.ok none => .httpError 404 "Build file not found"
    | Except.ok (some f) => .fileContent f

/-- The condition guarding the decrypting branch of the file route:
app.blocks.examples is a string and the caller path starts with it. -/
def pathIsUnderExamples (examplesDir : Option String) (path : String) : Bool :=
  match examplesDir with
  | some ex => List.isPrefixOf ex.data path.data
  | none => false

/-- Path(p).resolve() modelled lexically: interpret p against the
process working directory and normalize away dot and dotdot components
(symbolic links are outside the model); the result is the absolute
component list. -/
def resolveComps (procCwd : List Char) (p : List Char) : List (List Char) :=
  normComps (if isAbs p then p else procCwd ++ '/' :: p)

/-- Membership in Path.parents: the ancestor is a strict prefix of the
descendant in resolved components. -/
def isStrictAncestor (anc desc : List (List Char)) : Bool :=
  List.isPrefixOf anc desc && decide (anc.length < desc.length)

/-- Rendering of a resolved component list back to an absolute path. -/
def renderAbs (comps : List (List Char)) : String :=
  ⟨'/' :: joinComps comps⟩

/-- The file route: the decrypting branch reads the safe_join of the
working directory and the path (open on the rejected None raises);
otherwise the resolved path is served only when the resolved working
directory is among its parents, and the handler falls through to a
null-body response when it is not. -/
def file_route (altSeps : List Char) (encrypt : Bool)
    (examplesDir : Option String) (cwd procCwd path : String) : FileResp :=
  if encrypt && pathIsUnderExamples examplesDir path then
    match safe_join altSeps cwd path with
    | Except.error _ => .raised
    | Except.ok none => .raised
    | Except.ok (some f) => .fileContent f
  else
    if isStrictAncestor (resolveComps procCwd.data cwd.data)
        (resolveComps procCwd.data path.data) then
      .fileContent (renderAbs (resolveComps procCwd.data path.data))
    else .nullBody

/-- Classifier for the 404-equivalent not-found answer of a
file-serving route. -/
def isNotFoundResp : FileResp → Bool
  | .httpError 404 _ => true
  | _ => false

/-! ## Sample instances for concrete evaluation -/

/-- A sample app whose pipeline always raises, for evaluation. -/
def errApp : App Nat Nat Nat :=
  { auth := none, tokens := [], state_holder := [],
    blocks :=
      { blocks := [], input_components := [], config := 0,
        auth_message := none, show_error := true, share := false,
        process_api := fun _ _ st =>
          (st, (Except.error "boom" : Except String Nat)) } }

/-- A sample predict body with no session hash, for evaluation. -/
def emptyBody : PredictBody Nat :=
  { session_hash := none, data := [], fn_index := none }

/-- A sample app with one stateful and one plain block, whose pipeline
overwrites the stateful value, for evaluation. -/
def sessApp : App Nat Nat Nat :=
  { auth := none, tokens := [], state_holder := [],
    blocks :=
      { blocks := [(0, { stateful := true, default_value := some 5 }),
                   (1, { stateful := false, default_value := none })],
        input_components := [], config := 0, auth_message := none,
        show_error := true, share := false,
        process_api := fun _ _ st => (aset st 0 (some 9), Except.ok 7) } }

/-- A sample predict body carrying a session hash, for evaluation. -/
def hashBody : PredictBody Nat :=
  { session_hash := some "abc", data := [], fn_index := none }

/-- A sample app with an auth policy configured and an empty token
table, for evaluation of the config and gate behavior. -/
def authApp : App Nat Nat Nat :=
  { auth := some (Auth.table [("admin", "secret")]), tokens := [],
    state_holder := [],
    blocks :=
      { blocks := [], input_components := [], config := 7,
        auth_message := some "welcome", show_error := false, share := false,
        process_api := fun _ _ st => (st, Except.ok 0) } }

/-- A sample app with a two-input function whose pipeline reports the
length of the data it received, for evaluation. -/
def twoInputApp : App Nat Nat Nat :=
  { auth := none, tokens := [], state_holder := [],
    blocks :=
      { blocks := [], input_components := ["num1", "num2"], config := 0,
        auth_message := none, show_error := false, share := false,
        process_api := fun body _ st => (st, Except.ok body.data.length) } }

/-- A sample predict body with three data values, for evaluation. -/
def threeBody : PredictBody Nat :=
  { session_hash := none, data := [1, 2, 3], fn_index := none }

/-! ## Dictionary lemmas -/

theorem alookup_aset_self {α β : Type} [DecidableEq α]
    (l : List (α × β)) (k : α) (v : β) : alookup (aset l k v) k = some v := by
  induction l with
  | nil => simp [aset, alookup]
  | cons hd tl ih =>
      obtain ⟨k0, w⟩ := hd
      by_cases h : k = k0
      · simp [aset, alookup, h]
      · simp [aset, alookup, h, ih]

theorem alookup_aset_other {α β : Type} [DecidableEq α]
    (l : List (α × β)) (k k' : α) (v : β) (hne : k' ≠ k) :
    alookup (aset l k v) k' = alookup l k' := by
  induction l with
  | nil => simp [aset, alookup, hne]
  | cons hd tl ih =>
      obtain ⟨k0, w⟩ := hd
      by_cases h : k = k0
      · subst h
        simp [aset, alookup, hne]
      · by_cases h' : k' = k0 <;> simp [aset, alookup, h, h', ih]

/-! ## Structure of normpath output

The main loop of normpath only keeps dotdot components at the front of
its output (a cancelling dotdot pops instead of appending), so a
normalized relative path that does not begin with dotdot has no dotdot
component at all: the joined result stays lexically under the base. -/

theorem segregated_nil : Segregated [] := ⟨[], [], rfl, by simp, by simp⟩

theorem segregated_tail {l : List (List Char)} (h : Segregated l) :
    Segregated l.tail := by
  obtain ⟨xs, ys, rfl, hxs, hys⟩ := h
  cases xs with
  | nil =>
      cases ys with
      | nil => exact segregated_nil
      | cons y ys' =>
          exact ⟨[], ys', by simp, by simp,
            fun a ha => hys a (List.mem_cons_of_mem _ ha)⟩
  | cons x xs' =>
      exact ⟨xs', ys, by simp, fun a ha => hxs a (List.mem_cons_of_mem _ ha), hys⟩

theorem segregated_normStep (b : Bool) (acc : List (List Char)) (c : List Char)
    (h : Segregated acc) : Segregated (normStep b acc c) := by
  unfold normStep
  split
  · exact h
  · split
    · rename_i hcond
      by_cases hc : c = ['.', '.']
      · subst hc
        rcases hcond with hne | ⟨_, hemp⟩ | hhead
        · exact absurd rfl hne
        · subst hemp
          exact ⟨[], [['.', '.']], rfl, by simp, by simp⟩
        · obtain ⟨xs, ys, heq, hxs, hys⟩ := h
          cases xs with
          | nil =>
              refine ⟨[], ['.', '.'] :: ys, by simp [heq], by simp, ?_⟩
              intro y hy
              rcases List.mem_cons.mp hy with h1 | h1
              · exact h1
              · exact hys y h1
          | cons x xs' =>
              exfalso
              rw [heq] at hhead
              simp only [List.cons_append, List.head?_cons,
                Option.some.injEq] at hhead
              exact hxs x (List.mem_cons_self _ _) hhead
      · obtain ⟨xs, ys, heq, hxs, hys⟩ := h
        refine ⟨c :: xs, ys, by rw [heq, List.cons_append], ?_, hys⟩
        intro a ha
        rcases List.mem_cons.mp ha with rfl | h1
        · exact hc
        · exact hxs a h1
    · exact segregated_tail h

theorem segregated_foldl (b : Bool) (comps acc : List (List Char))
    (h : Segregated acc) : Segregated (comps.foldl (normStep b) acc) := by
  induction comps generalizing acc with
  | nil => exact h
  | cons c rest ih => exact ih _ (segregated_normStep b acc c h)

/-- normComps splits into leading dotdots and a dotdot-free remainder. -/
theorem normComps_decomp (p : List Char) :
    ∃ ds cs, normComps p = ds ++ cs ∧ (∀ d ∈ ds, d = ['.', '.']) ∧
      ∀ c ∈ cs, c ≠ ['.', '.'] := by
  obtain ⟨xs, ys, heq, hxs, hys⟩ :=
    segregated_foldl (isAbs p) (splitOnChar '/' p) [] segregated_nil
  refine ⟨ys.reverse, xs.reverse, ?_, ?_, ?_⟩
  · unfold normComps
    rw [heq, List.reverse_append]
  · intro d hd
    exact hys d (List.mem_reverse.mp hd)
  · intro c hc
    exact hxs c (List.mem_reverse.mp hc)

/-- Every component kept by the normpath loop is non-empty, not the dot
component, and free of slashes (given slash-free input components). -/
theorem clean_normStep (b : Bool) (acc : List (List Char)) (c : List Char)
    (hc : '/' ∉ c)
    (hacc : ∀ x ∈ acc, x ≠ [] ∧ x ≠ ['.'] ∧ '/' ∉ x) :
    ∀ x ∈ normStep b acc c, x ≠ [] ∧ x ≠ ['.'] ∧ '/' ∉ x := by
  unfold normStep
  split
  · exact hacc
  · rename_i hskip
    push_neg at hskip
    split
    · intro x hx
      rcases List.mem_cons.mp hx with rfl | h1
      · exact ⟨hskip.1, hskip.2, hc⟩
      · exact hacc x h1
    · intro x hx
      exact hacc x (List.mem_of_mem_tail hx)

theorem clean_foldl (b : Bool) (comps acc : List (List Char))
    (hcomps : ∀ c ∈ comps, '/' ∉ c)
    (hacc : ∀ x ∈ acc, x ≠ [] ∧ x ≠ ['.'] ∧ '/' ∉ x) :
    ∀ x ∈ comps.foldl (normStep b) acc, x ≠ [] ∧ x ≠ ['.'] ∧ '/' ∉ x := by
  induction comps generalizing acc with
  | nil => exact hacc
  | cons c rest ih =>
      exact ih _ (fun d hd => hcomps d (List.mem_cons_of_mem _ hd))
        (clean_normStep b acc c (hcomps c (List.mem_cons_self _ _)) hacc)

/-- str.split(sep) yields pieces that do not contain sep. -/
theorem splitOnChar_no_sep (sep : Char) (l : List Char) :
    ∀ c ∈ splitOnChar sep l, sep ∉ c := by
  induction l with
  | nil =>
      intro c hc
      simp only [splitOnChar, List.mem_singleton] at hc
      subst hc
      simp
  | cons x rest ih =>
      intro c hc
      simp only [splitOnChar] at hc
      by_cases hx : x = sep
      · rw [if_pos hx] at hc
        rcases List.mem_cons.mp hc with rfl | h1
        · simp
        · exact ih c h1
      · rw [if_neg hx] at hc
        cases hr : splitOnChar sep rest with
        | nil =>
            rw [hr] at hc
            simp only [List.mem_singleton] at hc
            subst hc
            intro hmem
            rcases List.mem_cons.mp hmem with rfl | h2
            · exact hx rfl
            · simp at h2
        | cons h t =>
            rw [hr] at hc
            rcases List.mem_cons.mp hc with rfl | h1
            · intro hmem
              rcases List.mem_cons.mp hmem with rfl | h2
              · exact hx rfl
              · exact ih h (by rw [hr]; exact List.mem_cons_self _ _) h2
            · exact ih c (by rw [hr]; exact List.mem_cons_of_mem _ h1)

/-- Normalizing an absolute path yields an absolute path. -/
theorem isAbs_normpathL (p : List Char) (h : isAbs p = true) :
    isAbs (normpathL p) = true := by
  have hp : p ≠ [] := by
    intro he
    subst he
    simp [isAbs] at h
  unfold normpathL
  rw [if_neg hp]
  have h1 : 1 ≤ initialSlashes p := by
    unfold initialSlashes
    rw [if_pos h]
    split <;> omega
  cases hn : initialSlashes p with
  | zero => omega
  | succ m =>
      simp only [List.replicate_succ, List.cons_append]
      simp [isAbs]

/-- A normalized relative path that is not dotdot and does not start
with dotdot-slash has no dotdot component at all. -/
theorem normComps_no_dotdot (p : List Char)
    (habs : isAbs (normpathL p) = false)
    (hne : normpathL p ≠ ['.', '.'])
    (hpre : List.isPrefixOf ['.', '.', '/'] (normpathL p) = false) :
    ['.', '.'] ∉ normComps p := by
  intro hmem
  obtain ⟨ds, cs, heq, hds, hcs⟩ := normComps_decomp p
  have hds_ne : ds ≠ [] := by
    intro h0
    subst h0
    simp only [List.nil_append] at heq
    rw [heq] at hmem
    exact hcs _ hmem rfl
  obtain ⟨d, ds', rfl⟩ := List.exists_cons_of_ne_nil hds_ne
  have hd : d = ['.', '.'] := hds d (List.mem_cons_self _ _)
  subst hd
  cases hab : isAbs p with
  | true =>
      have := isAbs_normpathL p hab
      rw [habs] at this
      cases this
  | false =>
      have hp : p ≠ [] := by
        intro h0
        subst h0
        have hz : normComps ([] : List Char) = [] := rfl
        rw [hz] at heq
        exact List.cons_ne_nil _ _ heq.symm
      have hzero : initialSlashes p = 0 := by
        unfold initialSlashes
        rw [hab]
        simp
      cases hrest : ds' ++ cs with
      | nil =>
          apply hne
          unfold normpathL
          rw [if_neg hp, hzero]
          rw [List.cons_append] at heq
          rw [hrest] at heq
          simp [heq, joinComps]
      | cons r rs =>
          have hthis : List.isPrefixOf ['.', '.', '/'] (normpathL p) = true := by
            unfold normpathL
            rw [if_neg hp, hzero]
            rw [List.cons_append] at heq
            rw [hrest] at heq
            simp [heq, joinComps, List.isPrefixOf]
          rw [hthis] at hpre
          cases hpre

/-! ## Claim theorems -/

/-- C1: for every non-empty caller path, safe_join returns the not-found
result (None) exactly when the normalized path contains a platform
separator other than slash, is absolute, equals dotdot, or starts with
dotdot-slash; for every other non-empty path it returns the base
directory joined with the normalized path, and that normalized path is
relative with no dotdot component (and only clean, slash-free
components), so the joined result never escapes the base directory. -/
theorem safe_join_spec (altSeps : List Char) (directory path : String)
    (hne : path ≠ "") :
    (rejects altSeps (normpath path) = true →
      safe_join altSeps directory path = Except.ok none) ∧
    (rejects altSeps (normpath path) = false →
      safe_join altSeps directory path =
        Except.ok (some (posixJoin directory (normpath path))) ∧
      isAbs (normpath path).data = false ∧
      ['.', '.'] ∉ normComps path.data ∧
      ∀ c ∈ normComps path.data, c ≠ [] ∧ c ≠ ['.'] ∧ '/' ∉ c) := by
  constructor
  · intro hrej
    simp [safe_join, hne, hrej]
  · intro hrej
    have hdata : (normpath path).data = normpathL path.data := rfl
    have hparts := hrej
    simp only [rejects, Bool.or_eq_false_iff, List.isPrefixOf] at hparts
    obtain ⟨⟨⟨_, habs⟩, hdd⟩, hpre⟩ := hparts
    refine ⟨by simp [safe_join, hne, hrej], ?_, ?_, ?_⟩
    · rw [hdata] at habs ⊢
      exact habs
    · rw [hdata] at habs hdd hpre
      apply normComps_no_dotdot path.data habs
      · intro h0
        rw [h0] at hdd
        simp at hdd
      · exact hpre
    · intro c hc
      have hmem : c ∈ (splitOnChar '/' path.data).foldl
          (normStep (isAbs path.data)) [] := by
        unfold normComps at hc
        exact List.mem_reverse.mp hc
      exact clean_foldl (isAbs path.data) (splitOnChar '/' path.data) []
        (splitOnChar_no_sep '/' path.data) (by simp) c hmem

theorem safe_join_spec_witness :
    (safe_join [] "/base" "a/../../etc/passwd" = Except.ok none) ∧
    safe_join [] "/base" "docs/./a.txt" = Except.ok (some "/base/docs/a.txt") := by
  have h1 := safe_join_spec [] "/base" "a/../../etc/passwd" (by decide)
  have h2 := safe_join_spec [] "/base" "docs/./a.txt" (by decide)
  refine ⟨h1.1 (by decide), ?_⟩
  have h3 := (h2.2 (by decide)).1
  have h4 : posixJoin "/base" (normpath "docs/./a.txt") = "/base/docs/a.txt" := by
    decide
  rw [h3, h4]

/-- C10: safe_join on the empty path reaches a use of the unassigned
local filename and raises, modelled as the error result; it returns
neither the not-found result nor a joined path. -/
theorem safe_join_empty_raises (altSeps : List Char) (directory : String) :
    safe_join altSeps directory "" = Except.error () ∧
    ∀ r : Option String, safe_join altSeps directory "" ≠ Except.ok r := by
  constructor
  · simp [safe_join]
  · intro r
    simp [safe_join]

/-- The entries of a freshly seeded session state are exactly the
stateful blocks with their defaults. -/
theorem seedState_mem {V : Type} (blocks : List (Nat × SBlock V)) (i : Nat)
    (dv : Option V) :
    (i, dv) ∈ seedState blocks ↔
      ∃ b : SBlock V, (i, b) ∈ blocks ∧ b.stateful = true ∧
        dv = b.default_value := by
  unfold seedState
  constructor
  · intro hm
    obtain ⟨⟨j, b⟩, hmem, heq⟩ := List.mem_map.mp hm
    obtain ⟨hin, hst⟩ := List.mem_filter.mp hmem
    simp only [Prod.mk.injEq] at heq
    exact ⟨b, heq.1 ▸ hin, hst, heq.2.symm⟩
  · intro hm
    obtain ⟨b, hin, hst, hdv⟩ := hm
    exact List.mem_map.mpr
      ⟨(i, b), List.mem_filter.mpr ⟨hin, hst⟩, by simp [hdv]⟩

/-- A fresh session hash resolves to the seeded default state. -/
theorem predictSession_fresh {V C O : Type} (app : App V C O)
    (body : PredictBody V) (h : String) (hb : body.session_hash = some h)
    (hfresh : alookup app.state_holder h = none) :
    predictSession app body = seedState app.blocks.blocks := by
  simp [predictSession, resolveSession, hb, hfresh]

/-- The state holder left behind by one predict request past the gate:
the final session state is written back under the hash (in-place
mutation of the shared dict), and nothing is written without a hash. -/
theorem predict_state_holder {V C O : Type} (app : App V C O)
    (cookie : Option String) (body : PredictBody V)
    (hgate : login_check app (get_current_user app cookie) = Except.ok ()) :
    (predict app cookie body).state_holder =
      match body.session_hash with
      | some h =>
          aset (resolveSession app body.session_hash).1 h
            (app.blocks.process_api body (get_current_user app cookie)
              (predictSession app body)).1
      | none => (resolveSession app body.session_hash).1 := by
  unfold predict predictSession
  rw [hgate]
  cases hb : body.session_hash with
  | none =>
      simp only [hb]
      split
      · rfl
      · split <;> rfl
  | some h =>
      simp only [hb]
      split
      · rfl
      · split <;> rfl

/-- C2: a predict request carrying a session hash not yet in the state
holder creates a session under that hash seeded with the default value
of every stateful block and only those; a second request with the same
hash observes the state the first request left behind, not re-seeded
defaults; a request without a hash runs on a throwaway empty state and
leaves the state holder untouched. -/
theorem predict_session_lifecycle {V C O : Type} (app : App V C O)
    (cookie : Option String) (h : String) (body1 body2 bodyN : PredictBody V)
    (hb1 : body1.session_hash = some h) (hb2 : body2.session_hash = some h)
    (hbN : bodyN.session_hash = none)
    (hfresh : alookup app.state_holder h = none)
    (hgate : login_check app (get_current_user app cookie) = Except.ok ()) :
    predictSession app body1 = seedState app.blocks.blocks ∧
    (∀ (i : Nat) (dv : Option V),
      (i, dv) ∈ seedState app.blocks.blocks ↔
        ∃ b : SBlock V, (i, b) ∈ app.blocks.blocks ∧ b.stateful = true ∧
          dv = b.default_value) ∧
    predictSession
        { app with state_holder := (predict app cookie body1).state_holder }
        body2 =
      (app.blocks.process_api body1 (get_current_user app cookie)
        (seedState app.blocks.blocks)).1 ∧
    predictSession app bodyN = [] ∧
    (predict app cookie bodyN).state_holder = app.state_holder := by
  refine ⟨predictSession_fresh app body1 h hb1 hfresh,
    fun i dv => seedState_mem app.blocks.blocks i dv, ?_, ?_, ?_⟩
  · have hh := predict_state_holder app cookie body1 hgate
    rw [hb1] at hh
    rw [predictSession_fresh app body1 h hb1 hfresh] at hh
    have hrs : resolveSession app (some h) =
        (aset app.state_holder h (seedState app.blocks.blocks),
          seedState app.blocks.blocks) := by
      simp [resolveSession, hfresh]
    rw [hrs] at hh
    simp only [predictSession, resolveSession, hb2, hh]
    rw [alookup_aset_self]
  · simp [predictSession, resolveSession, hbN]
  · have hh := predict_state_holder app cookie bodyN hgate
    rw [hbN] at hh
    rw [hh]
    simp [resolveSession, hbN]

theorem predict_session_lifecycle_witness :
    predictSession sessApp hashBody = [(0, some 5)] ∧
    predictSession
        { sessApp with state_holder := (predict sessApp none hashBody).state_holder }
        hashBody = [(0, some 9)] ∧
    predictSession sessApp emptyBody = [] := by
  have hthm := predict_session_lifecycle sessApp none "abc" hashBody hashBody
    emptyBody rfl rfl rfl rfl rfl
  refine ⟨?_, ?_, hthm.2.2.2.1⟩
  · rw [hthm.1]
    rfl
  · rw [hthm.2.2.1]
    rfl

/-- C3: with an auth policy configured, a predict request whose cookie
token does not resolve to a user in the token table is answered with
the 401 error and the processing pipeline is never invoked (the state
holder is also left untouched). -/
theorem predict_auth_gate {V C O : Type} (app : App V C O) (pol : Auth)
    (cookie : Option String) (body : PredictBody V)
    (hauth : app.auth = some pol)
    (huser : get_current_user app cookie = none) :
    (predict app cookie body).response = PredictResp.httpError 401 ∧
    (predict app cookie body).pipelineRan = false ∧
    (predict app cookie body).state_holder = app.state_holder := by
  unfold predict
  simp [login_check, hauth, huser]

theorem predict_auth_gate_witness :
    (predict authApp none emptyBody).pipelineRan = false := by
  exact (predict_auth_gate authApp (Auth.table [("admin", "secret")]) none
    emptyBody rfl rfl).2.1

/-- C4: when the pipeline raises during predict and the gate passed,
show_error on logs the traceback and answers the stringified-error
envelope with status 500; show_error off re-raises the exception
unchanged with nothing substituted. -/
theorem predict_error_handling {V C O : Type} (app : App V C O)
    (cookie : Option String) (body : PredictBody V) (st' : SessionState V)
    (e : String)
    (hgate : login_check app (get_current_user app cookie) = Except.ok ())
    (herr : app.blocks.process_api body (get_current_user app cookie)
        (predictSession app body) = (st', Except.error e)) :
    (app.blocks.show_error = true →
      (predict app cookie body).response = PredictResp.errorEnvelope e 500 ∧
      (predict app cookie body).loggedTraceback = true) ∧
    (app.blocks.show_error = false →
      (predict app cookie body).response = PredictResp.raised e ∧
      (predict app cookie body).loggedTraceback = false) := by
  unfold predictSession at herr
  unfold predict
  rw [hgate]
  constructor
  · intro hshow
    simp [herr, hshow]
  · intro hshow
    simp [herr, hshow]

theorem predict_error_handling_witness :
    (predict errApp none emptyBody).response =
      PredictResp.errorEnvelope "boom" 500 := by
  exact ((predict_error_handling errApp none emptyBody [] "boom" rfl rfl).1 rfl).1

/-- C5: under a table policy, login succeeds with a 302 redirect that
sets the fresh random token as the cookie and stores it mapped to the
username exactly when the username is a key of the table whose value
equals the supplied password; every other combination answers 400 and
leaves the token table unchanged. -/
theorem login_table_spec (t tokens : List (String × String))
    (freshToken username password : String) :
    (alookup t username = some password →
      login (Auth.table t) tokens freshToken username password =
        (aset tokens freshToken username, LoginResult.redirect 302 freshToken) ∧
      alookup (aset tokens freshToken username) freshToken = some username) ∧
    (alookup t username ≠ some password →
      login (Auth.table t) tokens freshToken username password =
        (tokens, LoginResult.httpError 400)) := by
  constructor
  · intro hp
    refine ⟨?_, alookup_aset_self tokens freshToken username⟩
    simp [login, authAllows, hp]
  · intro hp
    cases hl : alookup t username with
    | none => simp [login, authAllows, hl]
    | some pw =>
        have hne : pw ≠ password := by
          intro h0
          rw [h0] at hl
          exact hp hl
        simp [login, authAllows, hl, hne]

theorem login_table_spec_witness :
    login (Auth.table [("admin", "secret")]) [] "tok123" "admin" "secret" =
      ([("tok123", "admin")], LoginResult.redirect 302 "tok123") ∧
    login (Auth.table [("admin", "secret")]) [] "tok123" "admin" "wrong" =
      ([], LoginResult.httpError 400) := by
  constructor
  · exact ((login_table_spec [("admin", "secret")] [] "tok123" "admin" "secret").1
      (by decide)).1
  · exact (login_table_spec [("admin", "secret")] [] "tok123" "admin" "wrong").2
      (by decide)

/-- C8: a queue status poll with a hash unknown to the engine answers
the defined not_found envelope with no data instead of throwing (the
handler is a total function), and a known hash answers the recorded
status and result pair reshaped as the envelope. -/
theorem queue_status_spec {D : Type} (queue : List (String × String × Option D))
    (h : String) :
    (alookup queue h = none →
      queue_status queue { hash := h } =
        { status := "not_found", data := none }) ∧
    ∀ (s : String) (d : Option D), alookup queue h = some (s, d) →
      queue_status queue { hash := h } = { status := s, data := d } := by
  constructor
  · intro hl
    simp [queue_status, queueing_get_status, hl]
  · intro s d hl
    simp [queue_status, queueing_get_status, hl]

theorem queue_status_spec_witness :
    queue_status ([] : List (String × String × Option Nat)) { hash := "zzz" } =
      { status := "not_found", data := none } := by
  exact (queue_status_spec [] "zzz").1 rfl

/-- C6 counterexample: with an auth policy configured and no cookie,
GET config answers the 401 error, not the reduced auth_required
document the claim promises. -/
theorem get_config_unauthenticated_cex :
    get_config authApp none = ConfigResp.httpError 401 ∧
    get_config authApp none ≠ ConfigResp.authStub authApp.blocks.auth_message := by
  decide

/-- C6 amended: an authenticated caller (or any caller when no auth
policy is configured) receives the full configuration document from the
config route, but an unauthenticated caller under an auth policy
receives the 401 error there; the reduced auth_required document with
the auth message is what the root route serves such a caller. -/
theorem get_config_spec {V C O : Type} (app : App V C O) (pol : Auth)
    (cookie : Option String) :
    (login_check app (get_current_user app cookie) = Except.ok () →
      get_config app cookie = ConfigResp.doc app.blocks.config) ∧
    (app.auth = some pol → get_current_user app cookie = none →
      get_config app cookie = ConfigResp.httpError 401 ∧
      main_config app cookie = ConfigResp.authStub app.blocks.auth_message) := by
  constructor
  · intro hgate
    simp [get_config, hgate]
  · intro hauth huser
    constructor
    · simp [get_config, login_check, hauth, huser]
    · simp [main_config, hauth, huser]

theorem get_config_spec_witness :
    get_config { authApp with tokens := [("tok", "admin")] } (some "tok") =
      ConfigResp.doc 7 ∧
    main_config authApp none = ConfigResp.authStub (some "welcome") := by
  constructor
  · exact (get_config_spec { authApp with tokens := [("tok", "admin")] }
      (Auth.table [("admin", "secret")]) (some "tok")).1 rfl
  · exact ((get_config_spec authApp (Auth.table [("admin", "secret")]) none).2
      rfl rfl).2

/-- C7 counterexample: a data sequence of length three against a
two-input function is not rejected at the boundary: the pipeline is
invoked and its output is returned as the response. -/
theorem predict_no_length_check_cex :
    threeBody.data.length = 3 ∧
    twoInputApp.blocks.input_components.length = 2 ∧
    (predict twoInputApp none threeBody).pipelineRan = true ∧
    (predict twoInputApp none threeBody).response = PredictResp.success 3 := by
  refine ⟨rfl, rfl, rfl, rfl⟩

/-- C7 amended: the predict handler performs no validation of the data
sequence length against the declared input components; once the auth
gate passes, the pipeline is invoked on every request body regardless
of its data length, and any mismatch handling belongs to the pipeline. -/
theorem predict_no_boundary_validation {V C O : Type} (app : App V C O)
    (cookie : Option String) (body : PredictBody V)
    (hgate : login_check app (get_current_user app cookie) = Except.ok ()) :
    (predict app cookie body).pipelineRan = true := by
  unfold predict
  rw [hgate]
  split
  · rename_i heq
    exact absurd heq (by simp)
  · dsimp only
    split <;> (split <;> rfl)

theorem predict_no_boundary_validation_witness :
    (predict twoInputApp none threeBody).pipelineRan = true := by
  exact predict_no_boundary_validation twoInputApp none threeBody rfl

/-- C9 counterexample: on the file route (encryption off), a path that
escapes the configured root is answered with a null-body fall-through
response, not with the 404 not-found answer the claim promises for
every file-serving route. -/
theorem file_route_traversal_cex :
    isStrictAncestor (resolveComps ("/app" : String).data ("/app" : String).data)
        (resolveComps ("/app" : String).data ("/etc/passwd" : String).data) =
      false ∧
    file_route [] false none "/app" "/app" "/etc/passwd" = FileResp.nullBody ∧
    isNotFoundResp (file_route [] false none "/app" "/app" "/etc/passwd") =
      false := by
  decide

/-- C9 amended: traversal attempts on the static and assets routes
(share mode off) are answered with the 404 not-found error and nothing
is served; on the file route (encryption off) a path whose resolution
is not strictly under the resolved root is answered with the null-body
fall-through response rather than a 404, and file content is only ever
served for paths resolving strictly under the root. -/
theorem file_routes_traversal_spec (altSeps : List Char)
    (staticUrl buildUrl staticRoot buildRoot path : String)
    (hne : path ≠ "")
    (hrej : rejects altSeps (normpath path) = true) :
    static_resource altSeps false staticUrl staticRoot path =
      FileResp.httpError 404 "Static file not found" ∧
    build_resource altSeps false buildUrl buildRoot path =
      FileResp.httpError 404 "Build file not found" ∧
    ∀ (cwd procCwd : String),
      (isStrictAncestor (resolveComps procCwd.data cwd.data)
          (resolveComps procCwd.data path.data) = false →
        file_route altSeps false none cwd procCwd path = FileResp.nullBody) ∧
      ∀ f, file_route altSeps false none cwd procCwd path =
          FileResp.fileContent f →
        isStrictAncestor (resolveComps procCwd.data cwd.data)
          (resolveComps procCwd.data path.data) = true := by
  refine ⟨?_, ?_, ?_⟩
  · simp [static_resource, safe_join, hne, hrej]
  · simp [build_resource, safe_join, hne, hrej]
  · intro cwd procCwd
    constructor
    · intro hanc
      simp [file_route, pathIsUnderExamples, hanc]
    · intro f hf
      by_cases hanc : isStrictAncestor (resolveComps procCwd.data cwd.data)
          (resolveComps procCwd.data path.data) = true
      · exact hanc
      · rw [Bool.not_eq_true] at hanc
        simp [file_route, pathIsUnderExamples, hanc] at hf

theorem file_routes_traversal_spec_witness :
    static_resource [] false "https://cdn/static/" "/lib/static" "../../etc/shadow" =
      FileResp.httpError 404 "Static file not found" ∧
    file_route [] false none "/app" "/app" "/etc/passwd" = FileResp.nullBody := by
  have hthm := file_routes_traversal_spec [] "https://cdn/static/"
    "https://cdn/assets/" "/lib/static" "/lib/assets" "../../etc/shadow"
    (by decide) (by decide)
  have hthm2 := file_routes_traversal_spec [] "u" "u" "r" "r" "/etc/passwd"
    (by decide) (by decide)
  exact ⟨hthm.1, ((hthm2.2.2 "/app" "/app").1 (by decide))⟩

end GradioRoutes
